import Mathlib

/-!
Shallow embedding of the authentication and session-management service of
this repository (`app/auth_service.py`, `app/auth_middleware.py`,
`app/models.py`).

Modelling conventions:
- Python strings are `List Char`; timestamps are natural numbers (seconds
  since an arbitrary epoch), so `timedelta(hours=24)` is `24 * 60 * 60`.
- Calls into external libraries are explicit parameters: the cryptographic
  digest `hashlib.sha256(...).hexdigest()` is a parameter
  `digest : List Char → List Char`, and the random draws
  (`secrets.token_hex(16)` for salts, `secrets.token_urlsafe(32)` for
  session tokens) and the store-assigned primary keys are passed in by the
  caller.
- The relational store is a record of lists of rows; SQLModel's
  `exec(select(...)).first()` is `List.find?`, `.all()` plus per-row
  mutation is `List.map`, and `session.get(Model, pk)` is `List.find?` on
  the primary key.
-/

/-- Python's `str.split(c)` (no maxsplit): splits on every occurrence of
`c`; the empty string yields `[""]`. -/
def splitOnChar (c : Char) : List Char → List (List Char)
  | [] => [[]]
  | x :: xs =>
    if x = c then [] :: splitOnChar c xs
    else
      match splitOnChar c xs with
      | [] => [[x]]
      | q :: rest => (x :: q) :: rest

/-- `hash_password` from `app/auth_service.py`: the salt (drawn there by
`secrets.token_hex(16)`) and the digest function are explicit parameters;
the stored form is `f"{salt}:{sha256(password + salt).hexdigest()}"`. -/
def hash_password (digest : List Char → List Char) (salt password : List Char) : List Char :=
  salt ++ ':' :: digest (password ++ salt)

/-- `verify_password` from `app/auth_service.py`: Python splits the stored
form on `":"` and tuple-unpacks into exactly two parts; any other shape
raises `ValueError`, which the code catches (logging the event) and turns
into `False`. -/
def verify_password (digest : List Char → List Char) (password stored : List Char) : Bool :=
  match splitOnChar ':' stored with
  | [salt, stored_hash] => digest (password ++ salt) == stored_hash
  | _ => false

theorem splitOnChar_of_not_mem (c : Char) (l : List Char) (h : c ∉ l) :
    splitOnChar c l = [l] := by
  induction l with
  | nil => rfl
  | cons x xs ih =>
    simp only [List.mem_cons, not_or] at h
    simp [splitOnChar, Ne.symm h.1, ih h.2]

theorem splitOnChar_append (c : Char) (s d : List Char) (hs : c ∉ s) :
    splitOnChar c (s ++ c :: d) = s :: splitOnChar c d := by
  induction s with
  | nil => simp [splitOnChar]
  | cons x xs ih =>
    simp only [List.mem_cons, not_or] at hs
    simp [splitOnChar, Ne.symm hs.1, ih hs.2]

theorem splitOnChar_salt_digest (s d : List Char) (hs : ':' ∉ s) (hd : ':' ∉ d) :
    splitOnChar ':' (s ++ ':' :: d) = [s, d] := by
  rw [splitOnChar_append ':' s d hs, splitOnChar_of_not_mem ':' d hd]

theorem splitOnChar_ne_nil (c : Char) (l : List Char) : splitOnChar c l ≠ [] := by
  cases l with
  | nil => simp [splitOnChar]
  | cons x xs =>
    simp only [splitOnChar]
    split
    · simp
    · cases h : splitOnChar c xs <;> simp

theorem length_splitOnChar (c : Char) (l : List Char) :
    (splitOnChar c l).length = l.count c + 1 := by
  induction l with
  | nil => simp [splitOnChar]
  | cons x xs ih =>
    by_cases hx : x = c
    · subst hx
      simp [splitOnChar, List.count_cons, ih]
    · cases h : splitOnChar c xs with
      | nil => exact absurd h (splitOnChar_ne_nil c xs)
      | cons q rest =>
        rw [h] at ih
        simp only [List.length_cons] at ih
        simp [splitOnChar, hx, h, List.count_cons, Ne.symm hx]
        omega

/-- C5: `verify(p, hash(p))` is true for every password; with the same
salt, `verify(p, hash(p2))` is false whenever the salted digests of `p`
and `p2` differ (the cryptographic collision-freeness of SHA-256, here a
hypothesis on the abstract digest parameter); and two `hash` calls that
draw distinct salts produce distinct stored forms. Salts and digest
outputs are hexadecimal in the code, hence colon-free. -/
theorem C5_password_roundtrip (digest : List Char → List Char)
    (p p2 s s2 : List Char)
    (hs : ':' ∉ s) (hs2 : ':' ∉ s2)
    (hdig : ∀ x, ':' ∉ digest x) :
    verify_password digest p (hash_password digest s p) = true
  ∧ (digest (p ++ s) ≠ digest (p2 ++ s) →
      verify_password digest p (hash_password digest s p2) = false)
  ∧ (s ≠ s2 → hash_password digest s p ≠ hash_password digest s2 p) := by
  refine ⟨?_, ?_, ?_⟩
  · simp [verify_password, hash_password, splitOnChar_salt_digest s _ hs (hdig _)]
  · intro hne
    simp [verify_password, hash_password, splitOnChar_salt_digest s _ hs (hdig _), hne]
  · intro hne heq
    have hsplit := congrArg (splitOnChar ':') heq
    rw [hash_password, hash_password, splitOnChar_salt_digest s _ hs (hdig _),
      splitOnChar_salt_digest s2 _ hs2 (hdig _)] at hsplit
    simp only [List.cons.injEq] at hsplit
    exact hne hsplit.1

/-- A concrete colon-free digest used to instantiate witnesses. -/
def digestW : List Char → List Char :=
  fun x => x.filter (fun c => !(c == ':'))

theorem C5_password_roundtrip_witness :
    verify_password digestW ['a'] (hash_password digestW ['s'] ['a']) = true
  ∧ verify_password digestW ['a'] (hash_password digestW ['s'] ['b']) = false
  ∧ hash_password digestW ['s'] ['a'] ≠ hash_password digestW ['t'] ['a'] := by
  have h := C5_password_roundtrip digestW ['a'] ['b'] ['s'] ['t']
    (by decide) (by decide) (fun x => by simp [digestW, List.mem_filter])
  exact ⟨h.1, h.2.1 (by decide), h.2.2 (by decide)⟩

/-- C7: `verify` is a total function; whenever the stored form does not
contain exactly one `:` separator it returns `false` rather than raising,
and in particular `verify(p, "not-a-valid-format")` is `false` for every
password and every digest. -/
theorem C7_verify_total :
    (∀ (digest : List Char → List Char) (p stored : List Char),
        stored.count ':' ≠ 1 → verify_password digest p stored = false)
  ∧ (∀ (digest : List Char → List Char) (p : List Char),
        verify_password digest p ("not-a-valid-format".toList) = false) := by
  have key : ∀ (digest : List Char → List Char) (p stored : List Char),
      stored.count ':' ≠ 1 → verify_password digest p stored = false := by
    intro digest p stored h
    have hlen : (splitOnChar ':' stored).length ≠ 2 := by
      rw [length_splitOnChar]
      omega
    rcases hsp : splitOnChar ':' stored with _ | ⟨a, _ | ⟨b, _ | ⟨e, t⟩⟩⟩
    · simp [verify_password, hsp]
    · simp [verify_password, hsp]
    · exact absurd (by rw [hsp]; rfl : (splitOnChar ':' stored).length = 2) hlen
    · simp [verify_password, hsp]
  exact ⟨key, fun digest p => key digest p _ (by decide)⟩

theorem C7_verify_total_witness :
    verify_password digestW ['p'] ['x', 'y'] = false :=
  C7_verify_total.1 digestW ['p'] ['x', 'y'] (by decide)

/-- The `users` table row (`User` in `app/models.py`). `created_at` and
`updated_at` default to `now` at creation and are not touched by the
operations below, matching the code. -/
structure User where
  id : Nat
  username : List Char
  email : List Char
  password_hash : List Char
  full_name : List Char
  is_active : Bool
  is_authenticated : Bool
  last_login : Option Nat
  created_at : Nat
  updated_at : Nat
  deriving DecidableEq

/-- The `user_sessions` table row (`UserSession` in `app/models.py`). -/
structure UserSession where
  id : Nat
  user_id : Nat
  session_token : List Char
  expires_at : Nat
  created_at : Nat
  is_active : Bool
  deriving DecidableEq

/-- The relational store consumed through `get_session()`. -/
structure DB where
  users : List User
  sessions : List UserSession
  deriving DecidableEq

/-- `timedelta(hours=24)` in seconds. -/
def sessionLifetime : Nat := 24 * 60 * 60

/-- The per-session deactivation performed by `create_session`: every
active session of `uid` has `is_active` set to `False`; other rows are
untouched. -/
def deactivateFor (uid : Nat) (s : UserSession) : UserSession :=
  if s.user_id == uid && s.is_active then { s with is_active := false } else s

/-- `create_session` from `app/auth_service.py`: deactivates every active
session of the user, then inserts a fresh session with a new token and
`expires_at = now + 24h`. The token (`secrets.token_urlsafe(32)`), the
current time and the store-assigned primary key are parameters. -/
def create_session (db : DB) (uid : Nat) (token : List Char) (now sid : Nat) :
    UserSession × DB :=
  let ns : UserSession :=
    { id := sid, user_id := uid, session_token := token,
      expires_at := now + sessionLifetime, created_at := now, is_active := true }
  (ns, { db with sessions := db.sessions.map (deactivateFor uid) ++ [ns] })

/-- The `where` clause of the session lookup in `validate_session`. -/
def sessionMatches (token : List Char) (now : Nat) (s : UserSession) : Bool :=
  s.session_token == token && s.is_active && decide (now < s.expires_at)

/-- `validate_session` from `app/auth_service.py`. `none` as token models
Python `None`; `Python not session_token` is true for both `None` and the
empty string. The unchanged store is returned alongside the result to
state frame properties. -/
def validate_session (db : DB) (token : Option (List Char)) (now : Nat) :
    Option User × DB :=
  match token with
  | none => (none, db)
  | some t =>
    if t.isEmpty then (none, db)
    else
      match db.sessions.find? (sessionMatches t now) with
      | none => (none, db)
      | some us =>
        match db.users.find? (fun u => u.id == us.user_id) with
        | none => (none, db)
        | some u => if u.is_active then (some u, db) else (none, db)

/-- `logout_user` from `app/auth_service.py`: looks up an active session
with the given token; if none, returns `False` leaving the store
untouched; otherwise deactivates that session, sets the owning user's
`is_authenticated` to `False` when that user exists, and returns `True`. -/
def logout_user (db : DB) (token : Option (List Char)) : Bool × DB :=
  match token with
  | none => (false, db)
  | some t =>
    if t.isEmpty then (false, db)
    else
      match db.sessions.find? (fun s => s.session_token == t && s.is_active) with
      | none => (false, db)
      | some us =>
        let sessions := db.sessions.map
          (fun s => if s.id == us.id then { s with is_active := false } else s)
        let users := db.users.map
          (fun u => if u.id == us.user_id then { u with is_authenticated := false } else u)
        (true, { users := users, sessions := sessions })

/-- The `UserLogin` request schema from `app/models.py`. -/
structure UserLogin where
  username : List Char
  password : List Char

/-- `authenticate_user` from `app/auth_service.py`: returns `none` when
the username is unknown, the user is inactive, or the password fails
verification; on success sets `last_login = now` and
`is_authenticated = True`, persists the row and returns it. -/
def authenticate_user (db : DB) (digest : List Char → List Char)
    (login : UserLogin) (now : Nat) : Option User × DB :=
  match db.users.find? (fun u => u.username == login.username) with
  | none => (none, db)
  | some user =>
    if !user.is_active then (none, db)
    else if !verify_password digest login.password user.password_hash then (none, db)
    else
      let updated := { user with last_login := some now, is_authenticated := true }
      (some updated,
        { db with users := db.users.map (fun u => if u.id == user.id then updated else u) })

/-- The `UserCreate` request schema from `app/models.py`. -/
structure UserCreate where
  username : List Char
  email : List Char
  password : List Char
  full_name : List Char
  deriving DecidableEq

/-- The field validation SQLModel/pydantic performs when a `UserCreate`
value is constructed (`app/models.py`): `max_length=50/255/100` on
`username`/`email`/`full_name` and `min_length=6` on `password`; invalid
input raises a validation error, modelled as `none`. -/
def mkUserCreate (username email password full_name : List Char) : Option UserCreate :=
  if username.length ≤ 50 && email.length ≤ 255 &&
      6 ≤ password.length && full_name.length ≤ 100 then
    some { username := username, email := email, password := password,
           full_name := full_name }
  else none

/-- `create_user` from `app/auth_service.py`: fails with `none` when some
existing user already holds the username or the email; otherwise hashes
the password and inserts a user with `is_active=True`,
`is_authenticated=False`. Salt, time and primary key are parameters. -/
def create_user (db : DB) (digest : List Char → List Char) (salt : List Char)
    (uc : UserCreate) (now uid : Nat) : Option User × DB :=
  if db.users.any (fun u => u.username == uc.username || u.email == uc.email) then
    (none, db)
  else
    let user : User :=
      { id := uid, username := uc.username, email := uc.email,
        password_hash := hash_password digest salt uc.password,
        full_name := uc.full_name, is_active := true, is_authenticated := false,
        last_login := none, created_at := now, updated_at := now }
    (some user, { db with users := db.users ++ [user] })

/-- The per-client key-value storage `app.storage.user` as used by
`app/auth_middleware.py`: one optional token slot and one optional
pending-redirect slot. -/
structure ClientStorage where
  session_token : Option (List Char)
  redirect_after_login : Option (List Char)
  deriving DecidableEq

/-- `get_redirect_url` from `app/auth_middleware.py`:
`app.storage.user.get("redirect_after_login", "/dashboard")` — a plain
read with a default; the storage is returned unchanged because the code
performs no write or delete. -/
def get_redirect_url (st : ClientStorage) : List Char × ClientStorage :=
  (st.redirect_after_login.getD ("/dashboard".toList), st)

/-- C8: `validate_session` is read-only — for every token and every
stored state the store after the call equals the store before it; no
expiry is extended and no flag is flipped. -/
theorem C8_validate_session_read_only (db : DB) (token : Option (List Char)) (now : Nat) :
    (validate_session db token now).2 = db := by
  rcases token with _ | t
  · rfl
  · simp only [validate_session]
    split
    · rfl
    · split
      · rfl
      · split
        · rfl
        · split <;> rfl

/-- C6 counterexample: `get_redirect_url` does not clear the
pending-redirect slot. With the slot holding `/profile`, after one call
the slot is still present, and a second consecutive call returns
`/profile`, not the default landing path `/dashboard` — contradicting the
claim that the slot is absent after one call and that a second call
returns the default. -/
theorem C6_counterexample :
    (get_redirect_url
        { session_token := none, redirect_after_login := some ("/profile".toList) }).2.redirect_after_login
      = some ("/profile".toList)
  ∧ (get_redirect_url
       (get_redirect_url
         { session_token := none, redirect_after_login := some ("/profile".toList) }).2).1
      ≠ "/dashboard".toList := by
  constructor
  · rfl
  · decide

/-- C6 (amended): `get_redirect_url` returns the pending-redirect slot's
value, defaulting to `/dashboard` when none was set, and leaves the
client storage unchanged — it does not clear the slot, so a second
consecutive call returns the same path as the first. -/
theorem C6_consume_redirect_amended (st : ClientStorage) :
    (get_redirect_url st).2 = st
  ∧ (st.redirect_after_login = none → (get_redirect_url st).1 = "/dashboard".toList)
  ∧ (∀ q, st.redirect_after_login = some q → (get_redirect_url st).1 = q)
  ∧ (get_redirect_url (get_redirect_url st).2).1 = (get_redirect_url st).1 := by
  refine ⟨rfl, ?_, ?_, rfl⟩
  · intro h
    simp [get_redirect_url, h]
  · intro q h
    simp [get_redirect_url, h]

/-- Client storage with a pending redirect, used for witnesses. -/
def stW : ClientStorage :=
  { session_token := none, redirect_after_login := some ("/profile".toList) }

theorem C6_consume_redirect_amended_witness :
    (get_redirect_url stW).2 = stW ∧ (get_redirect_url stW).1 = "/profile".toList :=
  ⟨(C6_consume_redirect_amended stW).1,
   (C6_consume_redirect_amended stW).2.2.1 ("/profile".toList) rfl⟩

/-- C9: the `UserCreate` schema rejects any password shorter than 6
characters at validation time, so `create_user` (which consumes a
validated `UserCreate`) can never be reached with such a password: every
successfully validated `UserCreate` has a password of length ≥ 6. -/
theorem C9_password_min_length :
    (∀ u e q f, q.length < 6 → mkUserCreate u e q f = none)
  ∧ (∀ u e q f uc, mkUserCreate u e q f = some uc → 6 ≤ uc.password.length) := by
  constructor
  · intro u e q f h
    have hc : ¬ (6 ≤ q.length) := by omega
    simp [mkUserCreate, hc]
  · intro u e q f uc h
    simp only [mkUserCreate] at h
    split at h
    · rename_i hcond
      simp only [Bool.and_eq_true, decide_eq_true_eq] at hcond
      cases h
      exact hcond.1.2
    · exact absurd h (by simp)

theorem C9_password_min_length_witness :
    mkUserCreate ['u'] ['e'] ['p'] ['f'] = none :=
  C9_password_min_length.1 ['u'] ['e'] ['p'] ['f'] (by decide)

/-- C2: `validate_session` returns `none` for a null token, for the empty
token, and whenever no stored session matches the token with `is_active`
and an unexpired `expires_at`; and whenever it returns a user, that user
is a stored, active user owning a stored session that matches the token
exactly, is active, and expires strictly after `now`. -/
theorem C2_validate_session_spec (db : DB) (now : Nat) :
    (validate_session db none now).1 = none
  ∧ (validate_session db (some []) now).1 = none
  ∧ (∀ t, (∀ s ∈ db.sessions, sessionMatches t now s = false) →
        (validate_session db (some t) now).1 = none)
  ∧ (∀ t u, (validate_session db (some t) now).1 = some u →
        u ∈ db.users ∧ u.is_active = true ∧
        ∃ s ∈ db.sessions, s.session_token = t ∧ s.is_active = true ∧
          now < s.expires_at ∧ s.user_id = u.id) := by
  refine ⟨rfl, rfl, ?_, ?_⟩
  · intro t h
    simp only [validate_session]
    split
    · rfl
    · have hnone : db.sessions.find? (sessionMatches t now) = none := by
        rw [List.find?_eq_none]
        intro x hx
        simp [h x hx]
      rw [hnone]
  · intro t u h
    simp only [validate_session] at h
    split at h
    · exact absurd h (by simp)
    · split at h
      · exact absurd h (by simp)
      · rename_i us hfind
        split at h
        · exact absurd h (by simp)
        · rename_i u0 hu
          split at h
          · rename_i hact
            have heq : u0 = u := by simpa using h
            subst heq
            have hm := List.mem_of_find?_eq_some hfind
            have hp := List.find?_some hfind
            have hup := List.find?_some hu
            have hum := List.mem_of_find?_eq_some hu
            simp only [sessionMatches, Bool.and_eq_true, beq_iff_eq,
              decide_eq_true_eq] at hp
            simp only [beq_iff_eq] at hup
            exact ⟨hum, hact, us, hm, hp.1.1, hp.1.2, hp.2, hup.symm⟩
          · exact absurd h (by simp)

/-- A stored active user, used for witnesses. -/
def userW : User :=
  { id := 1, username := ['u'], email := ['e'], password_hash := ['h'],
    full_name := ['f'], is_active := true, is_authenticated := false,
    last_login := none, created_at := 0, updated_at := 0 }

/-- A store holding one active user and no session, used for witnesses. -/
def dbW : DB := { users := [userW], sessions := [] }

theorem C2_validate_session_spec_witness :
    (validate_session dbW none 5).1 = none
  ∧ (validate_session dbW (some ['g']) 5).1 = none :=
  ⟨(C2_validate_session_spec dbW 5).1,
   (C2_validate_session_spec dbW 5).2.2.1 ['g'] (by intro s hs; simp [dbW] at hs)⟩

/-- C3: `authenticate_user` fails with the single outcome `none` (and an
unchanged store) when the username is unknown, when the user is inactive,
and when the password does not verify; on success it returns the user
updated with `last_login = now` and `is_authenticated = true` and
persists that row. -/
theorem C3_authenticate_spec (db : DB) (digest : List Char → List Char)
    (login : UserLogin) (now : Nat) :
    (db.users.find? (fun u => u.username == login.username) = none →
        authenticate_user db digest login now = (none, db))
  ∧ (∀ user, db.users.find? (fun u => u.username == login.username) = some user →
        (user.is_active = false → authenticate_user db digest login now = (none, db))
      ∧ (verify_password digest login.password user.password_hash = false →
            authenticate_user db digest login now = (none, db))
      ∧ (user.is_active = true →
          verify_password digest login.password user.password_hash = true →
            authenticate_user db digest login now =
              (some { user with last_login := some now, is_authenticated := true },
               { db with users := db.users.map (fun u =>
                   if u.id == user.id
                   then { user with last_login := some now, is_authenticated := true }
                   else u) }))) := by
  constructor
  · intro h
    simp [authenticate_user, h]
  · intro user hfind
    refine ⟨?_, ?_, ?_⟩
    · intro hina
      simp [authenticate_user, hfind, hina]
    · intro hver
      by_cases hact : user.is_active = true
      · simp [authenticate_user, hfind, hact, hver]
      · simp only [Bool.not_eq_true] at hact
        simp [authenticate_user, hfind, hact]
    · intro hact hver
      simp [authenticate_user, hfind, hact, hver]

/-- A stored active user whose password is `"q"` under the witness
digest, used for witnesses. -/
def userA : User :=
  { id := 2, username := ['a'], email := ['b'],
    password_hash := hash_password digestW ['s'] ['q'],
    full_name := ['c'], is_active := true, is_authenticated := false,
    last_login := none, created_at := 0, updated_at := 0 }

/-- A store holding `userA`, used for witnesses. -/
def dbA : DB := { users := [userA], sessions := [] }

theorem C3_authenticate_spec_witness :
    authenticate_user dbA digestW { username := ['a'], password := ['q'] } 7 =
      (some { userA with last_login := some 7, is_authenticated := true },
       { dbA with users := dbA.users.map (fun u =>
           if u.id == userA.id
           then { userA with last_login := some 7, is_authenticated := true }
           else u) }) :=
  ((C3_authenticate_spec dbA digestW { username := ['a'], password := ['q'] } 7).2 userA
      (by decide)).2.2 (by decide) (by decide)

/-- C4: `logout_user` returns `false` and leaves the store untouched for
a null token, the empty token, and a token matched by no active session;
otherwise (under token uniqueness) it deactivates the matching session,
clears the owning user's `is_authenticated` flag, returns `true`, and a
subsequent `validate_session` of the same token yields `none`. -/
theorem C4_logout_spec (db : DB) :
    logout_user db none = (false, db)
  ∧ logout_user db (some []) = (false, db)
  ∧ (∀ t, db.sessions.find? (fun s => s.session_token == t && s.is_active) = none →
        logout_user db (some t) = (false, db))
  ∧ (∀ t us now, t ≠ [] →
        db.sessions.find? (fun s => s.session_token == t && s.is_active) = some us →
        (∀ s ∈ db.sessions, s.session_token = t → s.id = us.id) →
        (logout_user db (some t)).1 = true
      ∧ (∀ s ∈ (logout_user db (some t)).2.sessions, s.id = us.id →
            s.is_active = false)
      ∧ (∀ u ∈ (logout_user db (some t)).2.users, u.id = us.user_id →
            u.is_authenticated = false)
      ∧ (validate_session (logout_user db (some t)).2 (some t) now).1 = none) := by
  refine ⟨rfl, rfl, ?_, ?_⟩
  · intro t h
    cases t with
    | nil => rfl
    | cons a l => simp [logout_user, h]
  · intro t us now hne hfind huniq
    have ht : t.isEmpty = false := by
      cases t with
      | nil => exact absurd rfl hne
      | cons a l => rfl
    have hlog : logout_user db (some t) =
        (true,
          { users := db.users.map
              (fun u => if u.id == us.user_id
                        then { u with is_authenticated := false } else u),
            sessions := db.sessions.map
              (fun s => if s.id == us.id
                        then { s with is_active := false } else s) }) := by
      simp [logout_user, ht, hfind]
    refine ⟨by rw [hlog], ?_, ?_, ?_⟩
    · rw [hlog]
      intro s hs hid
      simp only [List.mem_map] at hs
      obtain ⟨a, ha, rfl⟩ := hs
      by_cases hai : (a.id == us.id) = true
      · rw [if_pos hai]
      · rw [if_neg hai] at hid ⊢
        exact absurd (by simp [hid]) hai
    · rw [hlog]
      intro u hu hid
      simp only [List.mem_map] at hu
      obtain ⟨a, ha, rfl⟩ := hu
      by_cases hai : (a.id == us.user_id) = true
      · rw [if_pos hai]
      · rw [if_neg hai] at hid ⊢
        exact absurd (by simp [hid]) hai
    · rw [hlog]
      have hnone : (db.sessions.map
          (fun s => if s.id == us.id then { s with is_active := false } else s)).find?
            (sessionMatches t now) = none := by
        rw [List.find?_eq_none]
        intro x hx
        simp only [List.mem_map] at hx
        obtain ⟨a, ha, rfl⟩ := hx
        by_cases hai : (a.id == us.id) = true
        · rw [if_pos hai]
          simp [sessionMatches]
        · rw [if_neg hai]
          intro hmatch
          simp only [sessionMatches, Bool.and_eq_true, beq_iff_eq,
            decide_eq_true_eq] at hmatch
          exact hai (by simp [huniq a ha hmatch.1.1])
      simp only [validate_session]
      rw [if_neg (by simp [ht]), hnone]

/-- An active, unexpired session owned by `userW`, used for witnesses. -/
def sessW : UserSession :=
  { id := 3, user_id := 1, session_token := ['k'], expires_at := 100,
    created_at := 0, is_active := true }

/-- A store holding `userW` and the active session `sessW`. -/
def dbL : DB := { users := [userW], sessions := [sessW] }

theorem C4_logout_spec_witness :
    (logout_user dbL (some ['k'])).1 = true
  ∧ (validate_session (logout_user dbL (some ['k'])).2 (some ['k']) 5).1 = none := by
  have h := (C4_logout_spec dbL).2.2.2 ['k'] sessW 5 (by decide) (by decide)
    (by intro s hs hts; simp [dbL, sessW] at hs; subst hs; rfl)
  exact ⟨h.1, h.2.2.2⟩

theorem isEmpty_false_of_ne_nil (l : List Char) (h : l ≠ []) : l.isEmpty = false := by
  cases l with
  | nil => exact absurd rfl h
  | cons a as => rfl

theorem validate_session_find_none (db : DB) (t : List Char) (now : Nat)
    (ht : t.isEmpty = false)
    (h : db.sessions.find? (sessionMatches t now) = none) :
    validate_session db (some t) now = (none, db) := by
  simp [validate_session, ht, h]

theorem validate_session_user_none (db : DB) (t : List Char) (now : Nat) (us : UserSession)
    (ht : t.isEmpty = false)
    (h : db.sessions.find? (sessionMatches t now) = some us)
    (h2 : db.users.find? (fun v => v.id == us.user_id) = none) :
    validate_session db (some t) now = (none, db) := by
  simp [validate_session, ht, h, h2]

theorem validate_session_user_some (db : DB) (t : List Char) (now : Nat)
    (us : UserSession) (u : User)
    (ht : t.isEmpty = false)
    (h : db.sessions.find? (sessionMatches t now) = some us)
    (h2 : db.users.find? (fun v => v.id == us.user_id) = some u) :
    validate_session db (some t) now =
      if u.is_active then (some u, db) else (none, db) := by
  simp [validate_session, ht, h, h2]

/-- Equality of user rows on every field other than `is_authenticated`. -/
def eqExceptAuth (u v : User) : Bool :=
  u.id == v.id && u.username == v.username && u.email == v.email &&
  u.password_hash == v.password_hash && u.full_name == v.full_name &&
  u.is_active == v.is_active && u.last_login == v.last_login &&
  u.created_at == v.created_at && u.updated_at == v.updated_at

/-- Pointwise `eqExceptAuth` on whole user tables. -/
def usersEqExceptAuth : List User → List User → Bool
  | [], [] => true
  | u :: us, v :: vs => eqExceptAuth u v && usersEqExceptAuth us vs
  | _, _ => false

theorem find?_eqExceptAuth (p q : User → Bool)
    (hpq : ∀ a b, eqExceptAuth a b = true → p a = q b) :
    ∀ (l1 l2 : List User), usersEqExceptAuth l1 l2 = true →
      (l1.find? p = none ∧ l2.find? q = none) ∨
      (∃ a b, l1.find? p = some a ∧ l2.find? q = some b ∧ eqExceptAuth a b = true) := by
  intro l1
  induction l1 with
  | nil =>
    intro l2 h
    cases l2 with
    | nil => exact Or.inl ⟨rfl, rfl⟩
    | cons b bs => simp [usersEqExceptAuth] at h
  | cons a as ih =>
    intro l2 h
    cases l2 with
    | nil => simp [usersEqExceptAuth] at h
    | cons b bs =>
      simp only [usersEqExceptAuth, Bool.and_eq_true] at h
      by_cases hpa : p a = true
      · have hqb : q b = true := by rw [← hpq a b h.1]; exact hpa
        exact Or.inr ⟨a, b, List.find?_cons_of_pos as hpa,
          List.find?_cons_of_pos bs hqb, h.1⟩
      · have hqb : ¬ q b = true := by rw [← hpq a b h.1]; exact hpa
        rcases ih bs h.2 with ⟨h1, h2⟩ | ⟨x, y, h1, h2, h3⟩
        · exact Or.inl ⟨by rw [List.find?_cons_of_neg as hpa]; exact h1,
            by rw [List.find?_cons_of_neg bs hqb]; exact h2⟩
        · exact Or.inr ⟨x, y, by rw [List.find?_cons_of_neg as hpa]; exact h1,
            by rw [List.find?_cons_of_neg bs hqb]; exact h2, h3⟩

/-- C10: the outcome of `validate_session` does not depend on the users'
`is_authenticated` flags: over two stores with identical sessions whose
user tables agree on every field except `is_authenticated`, validation of
any token fails in one iff it fails in the other, and when both succeed
the returned users agree on every field except `is_authenticated` — in
particular a user with `is_authenticated = false` who owns an active,
unexpired session is still resolved and returned as valid. -/
theorem C10_validate_ignores_auth_flag (db1 db2 : DB)
    (hs : db1.sessions = db2.sessions)
    (hu : usersEqExceptAuth db1.users db2.users = true)
    (token : Option (List Char)) (now : Nat) :
    ((validate_session db1 token now).1 = none ↔
      (validate_session db2 token now).1 = none)
  ∧ (∀ u1 u2, (validate_session db1 token now).1 = some u1 →
        (validate_session db2 token now).1 = some u2 →
        eqExceptAuth u1 u2 = true) := by
  rcases token with _ | t
  · exact ⟨Iff.rfl, fun u1 u2 h1 _ => by simp [validate_session] at h1⟩
  · by_cases ht : t.isEmpty = true
    · have e1 : validate_session db1 (some t) now = (none, db1) := by
        simp [validate_session, ht]
      have e2 : validate_session db2 (some t) now = (none, db2) := by
        simp [validate_session, ht]
      rw [e1, e2]
      exact ⟨Iff.rfl, fun u1 u2 hx _ => by simp at hx⟩
    · have ht2 : t.isEmpty = false := by simpa using ht
      cases hfind : db1.sessions.find? (sessionMatches t now) with
      | none =>
        rw [validate_session_find_none db1 t now ht2 hfind,
          validate_session_find_none db2 t now ht2 (by rw [← hs]; exact hfind)]
        exact ⟨Iff.rfl, fun u1 u2 hx _ => by simp at hx⟩
      | some us =>
        have hfind2 : db2.sessions.find? (sessionMatches t now) = some us := by
          rw [← hs]
          exact hfind
        have hresp : ∀ a b, eqExceptAuth a b = true →
            (fun v => v.id == us.user_id) a = (fun v => v.id == us.user_id) b := by
          intro a b hab
          simp only [eqExceptAuth, Bool.and_eq_true, beq_iff_eq] at hab
          simp [hab.1.1.1.1.1.1.1.1]
        rcases find?_eqExceptAuth _ _ hresp db1.users db2.users hu with
          ⟨h1, h2⟩ | ⟨a, b, h1, h2, hab⟩
        · rw [validate_session_user_none db1 t now us ht2 hfind h1,
            validate_session_user_none db2 t now us ht2 hfind2 h2]
          exact ⟨Iff.rfl, fun u1 u2 hx _ => by simp at hx⟩
        · rw [validate_session_user_some db1 t now us a ht2 hfind h1,
            validate_session_user_some db2 t now us b ht2 hfind2 h2]
          have hab2 := hab
          simp only [eqExceptAuth, Bool.and_eq_true, beq_iff_eq] at hab2
          have hact : a.is_active = b.is_active := hab2.1.1.1.2
          by_cases hA : a.is_active = true
          · rw [if_pos hA, if_pos (show b.is_active = true by rw [← hact]; exact hA)]
            refine ⟨by simp, ?_⟩
            intro u1 u2 hx1 hx2
            obtain rfl : a = u1 := by simpa using hx1
            obtain rfl : b = u2 := by simpa using hx2
            exact hab
          · rw [if_neg hA, if_neg (show ¬ b.is_active = true by rw [← hact]; exact hA)]
            exact ⟨Iff.rfl, fun u1 u2 hx _ => by simp at hx⟩

/-- `userW` with its `is_authenticated` flag flipped, for witnesses. -/
def userB : User := { userW with is_authenticated := true }

/-- `dbL` with the owner's `is_authenticated` flag flipped. -/
def dbB2 : DB := { users := [userB], sessions := [sessW] }

theorem C10_validate_ignores_auth_flag_witness :
    (validate_session dbL (some ['k']) 5).1 = some userW
  ∧ eqExceptAuth userW userB = true :=
  ⟨by decide,
   (C10_validate_ignores_auth_flag dbL dbB2 rfl (by decide) (some ['k']) 5).2
     userW userB (by decide) (by decide)⟩

/-- The row predicate "active session belonging to `uid`". -/
def isActiveFor (uid : Nat) (s : UserSession) : Bool :=
  s.user_id == uid && s.is_active

/-- Number of active sessions of `uid` in the store. -/
def activeCount (db : DB) (uid : Nat) : Nat :=
  db.sessions.countP (isActiveFor uid)

/-- The single-active-session invariant: for any user, at most one
session row has `is_active = true`. -/
def singleActive (db : DB) : Prop :=
  ∀ uid, activeCount db uid ≤ 1

theorem isActiveFor_deactivate (uid : Nat) (s : UserSession) :
    isActiveFor uid (deactivateFor uid s) = false := by
  simp only [deactivateFor]
  split
  · simp [isActiveFor]
  · rename_i h
    simpa [isActiveFor] using h

theorem isActiveFor_deactivate_ne (uid v : Nat) (hne : v ≠ uid) (s : UserSession) :
    isActiveFor v (deactivateFor uid s) = isActiveFor v s := by
  simp only [deactivateFor]
  split
  · rename_i h
    simp only [Bool.and_eq_true, beq_iff_eq] at h
    simp [isActiveFor, h.1, Ne.symm hne]
  · rfl

theorem deactivateFor_token (uid : Nat) (s : UserSession) :
    (deactivateFor uid s).session_token = s.session_token := by
  simp only [deactivateFor]
  split <;> rfl

theorem activeCount_create (db : DB) (uid : Nat) (token : List Char) (now sid : Nat) :
    activeCount (create_session db uid token now sid).2 uid = 1
  ∧ ∀ v, v ≠ uid →
      activeCount (create_session db uid token now sid).2 v = activeCount db v := by
  constructor
  · simp only [create_session, activeCount, List.countP_append, List.countP_map]
    have h0 : db.sessions.countP (isActiveFor uid ∘ deactivateFor uid) = 0 := by
      rw [List.countP_eq_zero]
      intro a ha
      simp [Function.comp, isActiveFor_deactivate]
    rw [h0]
    simp [List.countP_singleton, isActiveFor]
  · intro v hv
    simp only [create_session, activeCount, List.countP_append, List.countP_map]
    have h1 : db.sessions.countP (isActiveFor v ∘ deactivateFor uid) =
        db.sessions.countP (isActiveFor v) := by
      apply List.countP_congr
      intro x hx
      rw [Function.comp_apply, isActiveFor_deactivate_ne uid v hv x]
    rw [h1]
    simp [List.countP_singleton, isActiveFor, Ne.symm hv]

theorem singleActive_create (db : DB) (hSA : singleActive db) (uid : Nat)
    (token : List Char) (now sid : Nat) :
    singleActive (create_session db uid token now sid).2 := by
  intro v
  by_cases hv : v = uid
  · subst hv
    rw [(activeCount_create db v token now sid).1]
  · rw [(activeCount_create db uid token now sid).2 v hv]
    exact hSA v

theorem singleActive_logout (db : DB) (hSA : singleActive db)
    (token : Option (List Char)) :
    singleActive (logout_user db token).2 := by
  rcases token with _ | t
  · exact hSA
  · by_cases ht : t.isEmpty = true
    · have h : logout_user db (some t) = (false, db) := by
        simp [logout_user, ht]
      rw [h]
      exact hSA
    · cases hfind : db.sessions.find? (fun s => s.session_token == t && s.is_active) with
      | none =>
        have h : logout_user db (some t) = (false, db) := by
          simp [logout_user, ht, hfind]
        rw [h]
        exact hSA
      | some us =>
        have hlog : (logout_user db (some t)).2.sessions = db.sessions.map
            (fun s => if s.id == us.id then { s with is_active := false } else s) := by
          simp [logout_user, ht, hfind]
        intro v
        simp only [activeCount, hlog, List.countP_map]
        calc db.sessions.countP (isActiveFor v ∘ fun s =>
                if s.id == us.id then { s with is_active := false } else s)
            ≤ db.sessions.countP (isActiveFor v) := by
              apply List.countP_mono_left
              intro x hx hpx
              rw [Function.comp_apply] at hpx
              by_cases hxi : (x.id == us.id) = true
              · rw [if_pos hxi] at hpx
                simp [isActiveFor] at hpx
              · rw [if_neg hxi] at hpx
                exact hpx
          _ ≤ 1 := hSA v

theorem validate_session_snd (db : DB) (token : Option (List Char)) (now : Nat) :
    (validate_session db token now).2 = db := by
  rcases token with _ | t
  · rfl
  · simp only [validate_session]
    split
    · rfl
    · split
      · rfl
      · split
        · rfl
        · split <;> rfl

/-- C1: the single-active-session invariant is preserved by
`create_session` (which deactivates every active session of the user
before inserting the new one), by `validate_session` (read-only) and by
`logout_user`; and after two `create_session` calls for the same active
user with fresh distinct tokens, validating the first token yields `none`
while validating the second token yields the user. -/
theorem C1_single_active_session (db : DB) (hSA : singleActive db) :
    (∀ uid token now sid, singleActive (create_session db uid token now sid).2)
  ∧ (∀ token now, singleActive (validate_session db token now).2)
  ∧ (∀ token, singleActive (logout_user db token).2)
  ∧ (∀ (u : User) t1 t2 now1 sid1 now2 sid2 now3,
      db.users.find? (fun v => v.id == u.id) = some u →
      u.is_active = true →
      (∀ s ∈ db.sessions, s.session_token ≠ t1 ∧ s.session_token ≠ t2) →
      t1 ≠ t2 → t1 ≠ [] → t2 ≠ [] →
      now3 < now2 + sessionLifetime →
      (validate_session
          (create_session (create_session db u.id t1 now1 sid1).2 u.id t2 now2 sid2).2
          (some t1) now3).1 = none
    ∧ (validate_session
          (create_session (create_session db u.id t1 now1 sid1).2 u.id t2 now2 sid2).2
          (some t2) now3).1 = some u) := by
  refine ⟨fun uid token now sid => singleActive_create db hSA uid token now sid,
    ?_, fun token => singleActive_logout db hSA token, ?_⟩
  · intro token now
    rw [validate_session_snd]
    exact hSA
  · intro u t1 t2 now1 sid1 now2 sid2 now3 hufind hact htok hne h1e h2e hexp
    have ht1 : t1.isEmpty = false := isEmpty_false_of_ne_nil t1 h1e
    have ht2 : t2.isEmpty = false := isEmpty_false_of_ne_nil t2 h2e
    have hsess : (create_session (create_session db u.id t1 now1 sid1).2
          u.id t2 now2 sid2).2.sessions =
        (db.sessions.map (deactivateFor u.id) ++
          [({ id := sid1, user_id := u.id, session_token := t1,
              expires_at := now1 + sessionLifetime, created_at := now1,
              is_active := true } : UserSession)]).map (deactivateFor u.id) ++
          [({ id := sid2, user_id := u.id, session_token := t2,
              expires_at := now2 + sessionLifetime, created_at := now2,
              is_active := true } : UserSession)] := rfl
    have husers : (create_session (create_session db u.id t1 now1 sid1).2
        u.id t2 now2 sid2).2.users = db.users := rfl
    constructor
    · have hnone1 : ((create_session (create_session db u.id t1 now1 sid1).2
          u.id t2 now2 sid2).2.sessions).find? (sessionMatches t1 now3) = none := by
        rw [hsess, List.find?_eq_none]
        intro x hx
        simp only [List.map_append, List.mem_append, List.mem_map, List.mem_singleton] at hx
        rcases hx with (⟨a, ⟨b, hb, rfl⟩, rfl⟩ | ⟨a, rfl, rfl⟩) | rfl
        · simp [sessionMatches, deactivateFor_token, (htok b hb).1]
        · simp [sessionMatches, deactivateFor]
        · simp [sessionMatches, Ne.symm hne]
      have := validate_session_find_none _ t1 now3 ht1 hnone1
      rw [this]
    · have hl1 : ((db.sessions.map (deactivateFor u.id) ++
          [({ id := sid1, user_id := u.id, session_token := t1,
              expires_at := now1 + sessionLifetime, created_at := now1,
              is_active := true } : UserSession)]).map (deactivateFor u.id)).find?
            (sessionMatches t2 now3) = none := by
        rw [List.find?_eq_none]
        intro x hx
        simp only [List.map_append, List.mem_append, List.mem_map, List.mem_singleton] at hx
        rcases hx with ⟨a, ⟨b, hb, rfl⟩, rfl⟩ | ⟨a, rfl, rfl⟩
        · simp [sessionMatches, deactivateFor_token, (htok b hb).2]
        · simp [sessionMatches, deactivateFor]
      have hfind2 : ((create_session (create_session db u.id t1 now1 sid1).2
          u.id t2 now2 sid2).2.sessions).find? (sessionMatches t2 now3) =
          some { id := sid2, user_id := u.id, session_token := t2,
                 expires_at := now2 + sessionLifetime, created_at := now2,
                 is_active := true } := by
        rw [hsess, List.find?_append, hl1]
        simp [sessionMatches, hexp]
      have hres := validate_session_user_some _ t2 now3 _ u ht2 hfind2
        (by rw [husers]; exact hufind)
      rw [hres, if_pos hact]

theorem C1_single_active_session_witness :
    singleActive dbW
  ∧ (validate_session
        (create_session (create_session dbW 1 ['x'] 0 10).2 1 ['y'] 5 11).2
        (some ['x']) 20).1 = none
  ∧ (validate_session
        (create_session (create_session dbW 1 ['x'] 0 10).2 1 ['y'] 5 11).2
        (some ['y']) 20).1 = some userW := by
  have hSA : singleActive dbW := by
    intro uid
    simp [activeCount, dbW]
  have h := (C1_single_active_session dbW hSA).2.2.2 userW ['x'] ['y'] 0 10 5 11 20
    (by decide) (by decide) (by intro s hs; simp [dbW] at hs)
    (by decide) (by decide) (by decide) (by decide)
  exact ⟨hSA, h.1, h.2⟩
